import Mathlib

/-!
Shallow embedding of the susbot-backend core: the source normalizer
(`extract_true_source_code`), the rule-based risk engine
(`examine_checks` / `analyze_source_code`), the contract classifier
(`determine_contract_type`) and the address gate
(`is_valid_ethereum_address`), together with proofs of the spec claims.

Machine integers: the Rust `i32` running score is modelled as `Int`, the
`u8` result score as `Nat` via an explicit `% 256` cast.  Fallible code
(the `Regex::new(..).unwrap_or_else(panic)` inside the scan loop, and
`serde_json` parses) is modelled with `Option`.

The `regex` crate is modelled by a small first-order regex AST together
with a backtracking matcher and a compiler from the pattern strings of
the catalogue.  The model covers exactly the constructs the catalogue
uses (literals, escapes, character classes, `*`/`+` on single-character
atoms, alternation, word boundaries); character classes `\s`, `\d` and
the word characters of `\b` are modelled over ASCII, which is faithful
on all inputs appearing in the claims.
-/

namespace Susbot

/-- One item of a regex character class: a single character, an inclusive
range, or the perl classes `\s` / `\d`. -/
inductive CItem where
  | single (c : Char)
  | range (lo hi : Char)
  | clsS
  | clsD
deriving DecidableEq, Repr

/-- First-order regex AST covering the constructs used by the catalogue. -/
inductive RE where
  | eps
  | lit (c : Char)
  | cls (neg : Bool) (items : List CItem)
  | starCls (neg : Bool) (items : List CItem)
  | plusCls (neg : Bool) (items : List CItem)
  | wordB
  | seq (a b : RE)
  | alt (a b : RE)
deriving DecidableEq, Repr

/-- Does a character belong to a class item? -/
def memItem (c : Char) : CItem → Bool
  | .single d => c = d
  | .range lo hi => lo ≤ c && c ≤ hi
  | .clsS => c = ' ' || c = '\t' || c = '\n' || c = '\r' || c = '\x0b' || c = '\x0c'
  | .clsD => '0' ≤ c && c ≤ '9'

/-- Does a character belong to a (possibly negated) class? -/
def memCls (neg : Bool) (items : List CItem) (c : Char) : Bool :=
  let m := items.any (memItem c)
  if neg then !m else m

/-- ASCII word character, as used by the `\b` assertion. -/
def isWordChar (c : Char) : Bool :=
  ('a' ≤ c && c ≤ 'z') || ('A' ≤ c && c ≤ 'Z') || ('0' ≤ c && c ≤ '9') || c = '_'

/-- Word-character test on an optional character (`none` = text edge). -/
def isWordOpt : Option Char → Bool
  | none => false
  | some c => isWordChar c

/-- `\b`: the previous character and the next character disagree on
word-character-ness. -/
def atBoundary (prev : Option Char) (s : List Char) : Bool :=
  isWordOpt prev != isWordOpt s.head?

/-- Kleene star over a character class, in continuation style: try the
continuation at every number of consumed class characters. -/
def starLoop (neg : Bool) (items : List CItem) (k : Option Char → List Char → Bool) :
    Option Char → List Char → Bool
  | prev, s =>
    k prev s ||
      match s with
      | [] => false
      | c :: cs => memCls neg items c && starLoop neg items k (some c) cs

/-- Backtracking matcher in continuation-passing style.  `prev` is the
character immediately before the current position (`none` at the start
of the text); the continuation receives the updated `prev` and the rest
of the text. -/
def matchCont : RE → Option Char → List Char → (Option Char → List Char → Bool) → Bool
  | .eps, prev, s, k => k prev s
  | .lit c, _prev, s, k =>
    match s with
    | [] => false
    | x :: xs => x = c && k (some x) xs
  | .cls neg items, _prev, s, k =>
    match s with
    | [] => false
    | x :: xs => memCls neg items x && k (some x) xs
  | .starCls neg items, prev, s, k => starLoop neg items k prev s
  | .plusCls neg items, _prev, s, k =>
    match s with
    | [] => false
    | x :: xs => memCls neg items x && starLoop neg items k (some x) xs
  | .wordB, prev, s, k => atBoundary prev s && k prev s
  | .seq a b, prev, s, k => matchCont a prev s (fun p r => matchCont b p r k)
  | .alt a b, prev, s, k => matchCont a prev s k || matchCont b prev s k

/-- Try a match starting at the current position or at any later one. -/
def isMatchFrom (re : RE) : Option Char → List Char → Bool
  | prev, s =>
    matchCont re prev s (fun _ _ => true) ||
      match s with
      | [] => false
      | c :: cs => isMatchFrom re (some c) cs

/-- Existence test, the model of `Regex::is_match`. -/
def isMatch (re : RE) (s : String) : Bool :=
  isMatchFrom re none s.data

/-! Compiler from pattern strings to `RE`, the model of `Regex::new`.
It accepts exactly the regex subset the catalogue uses and returns
`none` (modelling a pattern-compilation error) on anything else. -/

/-- A parsed atom before an optional quantifier. -/
inductive AtomK where
  | lit (c : Char)
  | cls (neg : Bool) (items : List CItem)
  | bnd
deriving DecidableEq, Repr

/-- Metacharacters that may not stand bare in a pattern. -/
def isMeta (c : Char) : Bool :=
  c = '*' || c = '+' || c = '|' || c = '(' || c = ')' || c = '.' || c = '?' ||
    c = '^' || c = '$' || c = '\\' || c = '[' || c = ']' || c = '\x7b' || c = '\x7d'

/-- Parse one character-class item (after the opening `[`/negation). -/
def parseOneItem : List Char → Option (CItem × List Char)
  | '\\' :: d :: rest =>
    if d = 's' then some (.clsS, rest)
    else if d = 'd' then some (.clsD, rest)
    else some (.single d, rest)
  | c :: '-' :: d :: rest =>
    if d = ']' then some (.single c, '-' :: d :: rest)
    else some (.range c d, rest)
  | c :: rest => some (.single c, rest)
  | [] => none

/-- Parse class items up to the closing `]`. -/
def parseClassItems : Nat → List Char → Option (List CItem × List Char)
  | 0, _ => none
  | _ + 1, [] => none
  | fuel + 1, c :: rest =>
    if c = ']' then some ([], rest)
    else
      match parseOneItem (c :: rest) with
      | none => none
      | some (it, rest1) =>
        match parseClassItems fuel rest1 with
        | none => none
        | some (its, rest2) => some (it :: its, rest2)

/-- Parse one atom: an escape, a character class, or a plain character. -/
def parseAtom : List Char → Option (AtomK × List Char)
  | [] => none
  | '\\' :: d :: rest =>
    if d = 's' then some (.cls false [.clsS], rest)
    else if d = 'd' then some (.cls false [.clsD], rest)
    else if d = 'b' then some (.bnd, rest)
    else if isMeta d then some (.lit d, rest)
    else none
  | '\\' :: [] => none
  | '[' :: '^' :: rest =>
    match parseClassItems (rest.length + 1) rest with
    | none => none
    | some (its, rest1) => some (.cls true its, rest1)
  | '[' :: rest =>
    match parseClassItems (rest.length + 1) rest with
    | none => none
    | some (its, rest1) => some (.cls false its, rest1)
  | c :: rest =>
    if isMeta c then none else some (.lit c, rest)

/-- Apply an optional `*`/`+` quantifier to a parsed atom.  Quantifying a
word-boundary assertion is rejected. -/
def applyQuant : AtomK → List Char → Option (RE × List Char)
  | a, '*' :: rest =>
    match a with
    | .lit c => some (.starCls false [.single c], rest)
    | .cls neg its => some (.starCls neg its, rest)
    | .bnd => none
  | a, '+' :: rest =>
    match a with
    | .lit c => some (.plusCls false [.single c], rest)
    | .cls neg its => some (.plusCls neg its, rest)
    | .bnd => none
  | a, rest =>
    match a with
    | .lit c => some (.lit c, rest)
    | .cls neg its => some (.cls neg its, rest)
    | .bnd => some (.wordB, rest)

/-- Parse a concatenation, stopping at `|` or the end of the pattern. -/
def parseSeq : Nat → List Char → Option (RE × List Char)
  | 0, _ => none
  | _ + 1, [] => some (.eps, [])
  | fuel + 1, c :: rest =>
    if c = '|' then some (.eps, c :: rest)
    else
      match parseAtom (c :: rest) with
      | none => none
      | some (a, rest1) =>
        match applyQuant a rest1 with
        | none => none
        | some (re1, rest2) =>
          match parseSeq fuel rest2 with
          | none => none
          | some (re2, rest3) => some (.seq re1 re2, rest3)

/-- Parse an alternation of concatenations. -/
def parseAlt : Nat → List Char → Option RE
  | 0, _ => none
  | fuel + 1, s =>
    match parseSeq (s.length + 1) s with
    | none => none
    | some (re1, rest) =>
      match rest with
      | [] => some re1
      | '|' :: rest1 =>
        match parseAlt fuel rest1 with
        | none => none
        | some re2 => some (.alt re1 re2)
      | _ => none

/-- The model of `Regex::new`: compile a pattern string, `none` on error. -/
def compile (pat : String) : Option RE :=
  parseAlt (pat.length + 1) pat.data

/-! String helpers modelling `str::starts_with`, `str::ends_with` and
`str::contains` (substring search). -/

/-- Is the first list a prefix of the second (`str::starts_with`)? -/
def leadsWith : List Char → List Char → Bool
  | [], _ => true
  | _ :: _, [] => false
  | c :: n, d :: h => c = d && leadsWith n h

/-- Is the first list a suffix of the second (`str::ends_with`)? -/
def trailsWith (n h : List Char) : Bool :=
  leadsWith n.reverse h.reverse

/-- Does the needle occur as a contiguous sublist of the haystack
(`str::contains` with a string pattern)? -/
def containsSub (needle : List Char) : List Char → Bool
  | [] => leadsWith needle []
  | c :: h => leadsWith needle (c :: h) || containsSub needle h

/-- `str::contains` on strings. -/
def str_contains (hay needle : String) : Bool :=
  containsSub needle.data hay.data

/-! The risk engine of `analysis.rs`. -/

/-- Severity ordinal of a check. -/
inductive RiskLevel where
  | Critical
  | High
  | Medium
  | Low
  | Info
deriving DecidableEq, Repr

/-- `RiskLevel::to_string`. -/
def RiskLevel.to_string : RiskLevel → String
  | .Critical => "Critical"
  | .High => "High"
  | .Medium => "Medium"
  | .Low => "Low"
  | .Info => "Info"

/-- One catalogue entry (`AnalysisCheck`); the Rust `i32` impact is an `Int`. -/
structure AnalysisCheck where
  name : String
  description : String
  pattern : String
  risk_level : RiskLevel
  score_impact : Int
deriving DecidableEq, Repr

/-- One emitted finding (`FoundRisk`). -/
structure FoundRisk where
  check_name : String
  description : String
  risk_level : RiskLevel
deriving DecidableEq, Repr

/-- `FoundRisk::to_string`: `[{level}] {name}: {description}`. -/
def FoundRisk.to_string (r : FoundRisk) : String :=
  "[" ++ r.risk_level.to_string ++ "] " ++ r.check_name ++ ": " ++ r.description

/-- `ContractTraits`. -/
structure ContractTraits where
  verified : Bool
  good_distribution : Bool
  contract_type : String
deriving DecidableEq, Repr

/-- `AnalysisResult`; the Rust `u8` score is a `Nat`. -/
structure AnalysisResult where
  score : Nat
  risks : List FoundRisk
  contract_traits : ContractTraits
deriving DecidableEq, Repr

/-- Catalogue entry "Self-Destruct". -/
def selfDestructCheck : AnalysisCheck :=
  { name := "Self-Destruct",
    description := "The contract can be destroyed by its owner, removing it from the blockchain and sending all its funds to a designated address.",
    pattern := "selfdestruct\\s*\\(|suicide\\s*\\(",
    risk_level := .Critical, score_impact := 25 }

/-- Catalogue entry "Delegate Call". -/
def delegateCallCheck : AnalysisCheck :=
  { name := "Delegate Call",
    description := "Unsafe use of \x27delegatecall\x27 can lead to unexpected code execution and security vulnerabilities.",
    pattern := "\\.delegatecall\\b",
    risk_level := .Critical, score_impact := 40 }

/-- Catalogue entry "tx.origin Authentication". -/
def txOriginCheck : AnalysisCheck :=
  { name := "tx.origin Authentication",
    description := "Using \x27tx.origin\x27 for authentication is unsafe and can make the contract vulnerable to phishing attacks.",
    pattern := "\\btx\\.origin\\b",
    risk_level := .High, score_impact := 30 }

/-- Catalogue entry "Block Timestamp Dependency". -/
def blockTimestampCheck : AnalysisCheck :=
  { name := "Block Timestamp Dependency",
    description := "The contract\x27s logic depends on \x27block.timestamp\x27, which can be manipulated by miners.",
    pattern := "\\bblock\\.timestamp\\b",
    risk_level := .Medium, score_impact := 15 }

/-- Catalogue entry "Inline Assembly". -/
def inlineAssemblyCheck : AnalysisCheck :=
  { name := "Inline Assembly",
    description := "Use of inline assembly (\x27assembly\x27) bypasses compiler safety checks and requires careful review.",
    pattern := "\\bassembly\\b",
    risk_level := .Medium, score_impact := 5 }

/-- Catalogue entry "Low-level Call". -/
def lowCallCheck : AnalysisCheck :=
  { name := "Low-level Call",
    description := "Low-level \x27.call\x27 is used. If the return value is not checked, it can lead to failed external calls being missed.",
    pattern := "\\.call\\b",
    risk_level := .Low, score_impact := 5 }

/-- Catalogue entry "Outdated Compiler Version". -/
def outdatedCompilerCheck : AnalysisCheck :=
  { name := "Outdated Compiler Version",
    description := "An old Solidity version is used (pragma < 0.8.0), which lacks built-in overflow/underflow checks.",
    pattern := "pragma\\s+solidity\\s*[\\^<>=]*\\s*0\\.[0-7]\\.",
    risk_level := .Low, score_impact := 5 }

/-- Catalogue entry "Unprotected Ether Withdrawal". -/
def etherWithdrawalCheck : AnalysisCheck :=
  { name := "Unprotected Ether Withdrawal",
    description := "A \x27transfer\x27 function is used. If protections like \x27require(msg.sender == owner)\x27 are missing, it could be a vulnerability.",
    pattern := "\\.transfer\\(",
    risk_level := .High, score_impact := 25 }

/-- Catalogue entry "Mint Function". -/
def mintFunctionCheck : AnalysisCheck :=
  { name := "Mint Function",
    description := "The contract contains a \x27mint\x27 function, indicating it can create new tokens.",
    pattern := "\\bmint\\b",
    risk_level := .Info, score_impact := 0 }

/-- Catalogue entry "Infinite Minting". -/
def infiniteMintingCheck : AnalysisCheck :=
  { name := "Infinite Minting",
    description := "The contract allows unlimited token minting without proper restrictions, potentially leading to hyperinflation.",
    pattern := "function\\s+mint\\s*\\([^)]*\\)",
    risk_level := .Critical, score_impact := 25 }

/-- Catalogue entry "Owner Can Blacklist Users". -/
def blacklistCheck : AnalysisCheck :=
  { name := "Owner Can Blacklist Users",
    description := "The contract owner can blacklist or freeze user addresses, giving centralized control over user funds.",
    pattern := "blacklist|blacklisted|frozen|freeze",
    risk_level := .High, score_impact := 15 }

/-- Catalogue entry "Pausable Contract". -/
def pausableCheck : AnalysisCheck :=
  { name := "Pausable Contract",
    description := "The contract can be paused by the owner, potentially stopping all transfers and functionality.",
    pattern := "Pausable|_pause\\s*\\(|_unpause\\s*\\(|whenNotPaused|whenPaused",
    risk_level := .Medium, score_impact := 10 }

/-- Catalogue entry "Missing Event Emits". -/
def missingEventsCheck : AnalysisCheck :=
  { name := "Missing Event Emits",
    description := "Critical functions lack event emissions, reducing transparency and making it harder to track important actions.",
    pattern := "function\\s+transfer\\s*\\([^)]*\\)",
    risk_level := .Low, score_impact := 3 }

/-- Catalogue entry "Hardcoded Gas Limits". -/
def hardcodedGasCheck : AnalysisCheck :=
  { name := "Hardcoded Gas Limits",
    description := "The contract uses hardcoded gas values which may cause issues if network conditions change.",
    pattern := "\\.gas\\s*\\(\\s*\\d+\\s*\\)",
    risk_level := .Low, score_impact := 2 }

/-- Catalogue entry "Unchecked Call Return". -/
def uncheckedCallCheck : AnalysisCheck :=
  { name := "Unchecked Call Return",
    description := "Low-level calls are made without checking their return values, potentially missing failed calls.",
    pattern := "\\.call\\s*\\([^)]*\\)\\s*;",
    risk_level := .Medium, score_impact := 10 }

/-- Catalogue entry "Reentrancy Vulnerability". -/
def reentrancyCheck : AnalysisCheck :=
  { name := "Reentrancy Vulnerability",
    description := "The contract may be vulnerable to reentrancy attacks due to external calls before state changes.",
    pattern := "\\.call\\s*\\([^)]*\\)",
    risk_level := .Critical, score_impact := 30 }

/-- The fixed 16-entry catalogue `CHECKS`, in source order. -/
def CHECKS : List AnalysisCheck :=
  [selfDestructCheck, delegateCallCheck, txOriginCheck, blockTimestampCheck, inlineAssemblyCheck, lowCallCheck, outdatedCompilerCheck, etherWithdrawalCheck,
   mintFunctionCheck, infiniteMintingCheck, blacklistCheck, pausableCheck, missingEventsCheck, hardcodedGasCheck, uncheckedCallCheck, reentrancyCheck]

/-- The finding a matching check pushes. -/
def mkRisk (c : AnalysisCheck) : FoundRisk :=
  { check_name := c.name, description := c.description, risk_level := c.risk_level }

/-- The loop body of `examine_checks` over a list of checks, with the
`&mut score` / `&mut risks` state passed explicitly.  `none` models the
`panic!` on a pattern that fails to compile. -/
def examineList (source_code : String) :
    List AnalysisCheck → Int × List FoundRisk → Option (Int × List FoundRisk)
  | [], acc => some acc
  | c :: cs, acc =>
    match compile c.pattern with
    | none => none
    | some re =>
      examineList source_code cs
        (if isMatch re source_code then
          (acc.1 - c.score_impact, acc.2 ++ [mkRisk c])
        else acc)

/-- `examine_checks`. -/
def examine_checks (source_code : String) (acc : Int × List FoundRisk) :
    Option (Int × List FoundRisk) :=
  examineList source_code CHECKS acc

/-- `prevent_negative_scores`. -/
def prevent_negative_scores (score : Int) : Int :=
  if score < 0 then 0 else score

/-- The Rust `as u8` cast (wrapping). -/
def toU8 (n : Int) : Nat :=
  (n % 256).toNat

/-- `determine_contract_type`. -/
def determine_contract_type (source_code : String) : String :=
  if str_contains source_code "ERC20" || str_contains source_code "IERC20" then
    "ERC20 Token"
  else if str_contains source_code "ERC721" || str_contains source_code "IERC721" then
    "NFT (ERC721)"
  else if str_contains source_code "ERC1155" || str_contains source_code "IERC1155" then
    "Multi-Token (ERC1155)"
  else if str_contains source_code "Ownable" then
    "Ownable Contract"
  else if str_contains source_code "contract" then
    "Smart Contract"
  else
    "Unknown"

/-- `analyze_source_code_with_verification`; `none` models the pattern
compilation panic inside the scan loop. -/
def analyze_source_code_with_verification (source_code : String) (verified : Bool) :
    Option AnalysisResult :=
  (examine_checks source_code (100, [])).map fun sr =>
    { score := toU8 (prevent_negative_scores sr.1)
      risks := sr.2
      contract_traits :=
        { verified := verified
          good_distribution := true
          contract_type := determine_contract_type source_code } }

/-- `analyze_source_code`: same body with `verified` hardcoded to `true`. -/
def analyze_source_code (source_code : String) : Option AnalysisResult :=
  analyze_source_code_with_verification source_code true

/-! A JSON parser, the model of `serde_json::from_str`, covering the
standard JSON grammar (objects, arrays, strings with escapes, numbers,
`true`/`false`/`null`). -/

/-- A JSON value; numbers keep their raw text, which is all the
deserialization below ever needs. -/
inductive Json where
  | jnull
  | jbool (b : Bool)
  | jnum (raw : List Char)
  | jstr (s : String)
  | jarr (xs : List Json)
  | jobj (kvs : List (String × Json))
deriving Repr

/-- JSON insignificant whitespace. -/
def jsonWs (c : Char) : Bool :=
  c = ' ' || c = '\t' || c = '\n' || c = '\r'

/-- Drop leading JSON whitespace. -/
def skipWs (s : List Char) : List Char :=
  s.dropWhile jsonWs

/-- Hexadecimal digit value (via code points). -/
def hexVal (c : Char) : Option Nat :=
  let n := c.toNat
  if 48 ≤ n && n ≤ 57 then some (n - 48)
  else if 97 ≤ n && n ≤ 102 then some (n - 87)
  else if 65 ≤ n && n ≤ 70 then some (n - 55)
  else none

/-- Decode one single-character backslash escape (`\u` is handled
separately). -/
def escChar (e : Char) : Option Char :=
  if e = '"' || e = '/' || e = '\\' then some e
  else if e = 'n' then some (Char.ofNat 10)
  else if e = 't' then some (Char.ofNat 9)
  else if e = 'r' then some (Char.ofNat 13)
  else if e = 'b' then some (Char.ofNat 8)
  else if e = 'f' then some (Char.ofNat 12)
  else none

/-- Parse the body of a JSON string literal (after the opening quote),
returning the decoded characters and the text after the closing quote. -/
def parseStrBody : Nat → List Char → Option (List Char × List Char)
  | 0, _ => none
  | _ + 1, [] => none
  | fuel + 1, c :: rest =>
    if c = '"' then some ([], rest)
    else if c = '\\' then
      match rest with
      | 'u' :: h1 :: h2 :: h3 :: h4 :: rest2 =>
        match hexVal h1, hexVal h2, hexVal h3, hexVal h4 with
        | some x1, some x2, some x3, some x4 =>
          match parseStrBody fuel rest2 with
          | none => none
          | some (tail, rest3) =>
            some (Char.ofNat (((x1 * 16 + x2) * 16 + x3) * 16 + x4) :: tail, rest3)
        | _, _, _, _ => none
      | e :: rest1 =>
        match escChar e with
        | none => none
        | some d =>
          match parseStrBody fuel rest1 with
          | none => none
          | some (tail, rest2) => some (d :: tail, rest2)
      | [] => none
    else if c.toNat < 32 then none
    else
      match parseStrBody fuel rest with
      | none => none
      | some (tail, rest1) => some (c :: tail, rest1)

/-- Take a run of decimal digits. -/
def takeDigits (s : List Char) : List Char × List Char :=
  s.span (fun c => '0' ≤ c && c ≤ '9')

/-- Parse a JSON number, returning its raw text. -/
def parseNum (s : List Char) : Option (List Char × List Char) :=
  let (neg, s1) := match s with
    | '-' :: r => (['-'], r)
    | _ => (([] : List Char), s)
  match takeDigits s1 with
  | ([], _) => none
  | (int, s2) =>
    if int.length > 1 && int.head? = some '0' then none
    else
      let frac : Option (List Char × List Char) := match s2 with
        | '.' :: r =>
          match takeDigits r with
          | ([], _) => none
          | (ds, r1) => some ('.' :: ds, r1)
        | _ => some ([], s2)
      match frac with
      | none => none
      | some (fr, s3) =>
        let ex : Option (List Char × List Char) := match s3 with
          | c :: r =>
            if c = 'e' || c = 'E' then
              let (sgn, r1) := match r with
                | '+' :: r2 => ((['+'] : List Char), r2)
                | '-' :: r2 => ((['-'] : List Char), r2)
                | _ => (([] : List Char), r)
              match takeDigits r1 with
              | ([], _) => none
              | (ds, r2) => some (c :: (sgn ++ ds), r2)
            else some ([], s3)
          | [] => some ([], [])
        match ex with
        | none => none
        | some (e, s4) => some (neg ++ int ++ fr ++ e, s4)

mutual

/-- Parse one JSON value. -/
def parseJsonVal : Nat → List Char → Option (Json × List Char)
  | 0, _ => none
  | fuel + 1, s =>
    match skipWs s with
    | [] => none
    | '"' :: rest =>
      (parseStrBody (rest.length + 1) rest).map (fun p => (Json.jstr ⟨p.1⟩, p.2))
    | '\x7b' :: rest =>
      (parseObjBody fuel rest).map (fun p => (Json.jobj p.1, p.2))
    | '[' :: rest =>
      (parseArrBody fuel rest).map (fun p => (Json.jarr p.1, p.2))
    | 't' :: 'r' :: 'u' :: 'e' :: rest => some (Json.jbool true, rest)
    | 'f' :: 'a' :: 'l' :: 's' :: 'e' :: rest => some (Json.jbool false, rest)
    | 'n' :: 'u' :: 'l' :: 'l' :: rest => some (Json.jnull, rest)
    | s1 => (parseNum s1).map (fun p => (Json.jnum p.1, p.2))

/-- Parse an object body after the opening brace. -/
def parseObjBody : Nat → List Char → Option (List (String × Json) × List Char)
  | 0, _ => none
  | fuel + 1, s =>
    match skipWs s with
    | '\x7d' :: rest => some ([], rest)
    | s1 => parseObjMembers fuel s1

/-- Parse one or more `"key": value` members and the closing brace. -/
def parseObjMembers : Nat → List Char → Option (List (String × Json) × List Char)
  | 0, _ => none
  | fuel + 1, s =>
    match skipWs s with
    | '"' :: rest =>
      match parseStrBody (rest.length + 1) rest with
      | none => none
      | some (key, rest1) =>
        match skipWs rest1 with
        | ':' :: rest2 =>
          match parseJsonVal fuel rest2 with
          | none => none
          | some (v, rest3) =>
            match skipWs rest3 with
            | ',' :: rest4 =>
              match parseObjMembers fuel rest4 with
              | none => none
              | some (kvs, rest5) => some ((⟨key⟩, v) :: kvs, rest5)
            | '\x7d' :: rest4 => some ([(⟨key⟩, v)], rest4)
            | _ => none
        | _ => none
    | _ => none

/-- Parse an array body after the opening bracket. -/
def parseArrBody : Nat → List Char → Option (List Json × List Char)
  | 0, _ => none
  | fuel + 1, s =>
    match skipWs s with
    | ']' :: rest => some ([], rest)
    | s1 => parseArrItems fuel s1

/-- Parse one or more array items and the closing bracket. -/
def parseArrItems : Nat → List Char → Option (List Json × List Char)
  | 0, _ => none
  | fuel + 1, s =>
    match parseJsonVal fuel s with
    | none => none
    | some (v, rest) =>
      match skipWs rest with
      | ',' :: rest1 => (parseArrItems fuel rest1).map (fun p => (v :: p.1, p.2))
      | ']' :: rest1 => some ([v], rest1)
      | _ => none

end

/-- `serde_json::from_str` at the `Json` level: the whole input must be
one JSON value with only whitespace around it. -/
def parseJson (s : String) : Option Json :=
  match parseJsonVal (s.length + 1) s.data with
  | some (v, rest) => if skipWs rest = [] then some v else none
  | none => none

/-! `structs.rs`: `ContractSources` and `ScanResult`. -/

/-- `SourceFile`. -/
structure SourceFile where
  content : String
deriving DecidableEq, Repr

/-- `ContractSources`: the `HashMap` is modelled as its entries in
document order; iteration order is abstracted separately (`IterOrder`). -/
structure ContractSources where
  sources : List (String × SourceFile)
deriving DecidableEq, Repr

/-- serde struct-field access: the field must occur exactly once
(missing and duplicated fields are deserialization errors). -/
def getField (kvs : List (String × Json)) (k : String) : Option Json :=
  match kvs.filter (fun p => p.1 = k) with
  | [kv] => some kv.2
  | _ => none

/-- Deserialize one `SourceFile` (unknown fields ignored). -/
def sourceFileOfJson : Json → Option SourceFile
  | .jobj kvs =>
    match getField kvs "content" with
    | some (.jstr s) => some ⟨s⟩
    | _ => none
  | _ => none

/-- `HashMap::insert`: a repeated key overwrites the earlier entry. -/
def insertOnce (m : List (String × SourceFile)) (k : String) (v : SourceFile) :
    List (String × SourceFile) :=
  m.filter (fun p => p.1 ≠ k) ++ [(k, v)]

/-- Deserialize the `sources` map. -/
def sourcesMapOfJson : Json → Option (List (String × SourceFile))
  | .jobj kvs =>
    kvs.foldlM (fun m kv => (sourceFileOfJson kv.2).map (insertOnce m kv.1)) []
  | _ => none

/-- `ContractSources::from_string`. -/
def ContractSources.from_string (string : String) : Option ContractSources :=
  match parseJson string with
  | some (.jobj kvs) =>
    match getField kvs "sources" with
    | some j => (sourcesMapOfJson j).map ContractSources.mk
    | none => none
  | _ => none

/-- A `HashMap` iteration order: the hidden per-instance hasher state is
abstracted as an arbitrary reordering of the entry list. -/
def IterOrder : Type :=
  List (String × SourceFile) → List (String × SourceFile)

/-- An iteration order visits exactly the entries of the map. -/
def ValidIterOrder (ord : IterOrder) : Prop :=
  ∀ l, List.Perm (ord l) l

/-- The identity iteration order. -/
def ordId : IterOrder := fun l => l

/-- The reversed iteration order. -/
def ordRev : IterOrder := fun l => l.reverse

/-- `ContractSources::to_string`: join the file contents of `values()`
with newlines, in the iteration order of this `HashMap` instance. -/
def ContractSources.to_string (ord : IterOrder) (cs : ContractSources) : String :=
  String.intercalate "\n" ((ord cs.sources).map (fun file => file.2.content))

/-! `lib.rs`: normalizer, address gate and the pure core of
`process_etherscan_data`. -/

/-- `not_json_to_string`. -/
def not_json_to_string (etherscan_source : String) : String :=
  etherscan_source

/-- `is_double_encoded_json`. -/
def is_double_encoded_json (etherscan_source : String) : Bool :=
  leadsWith "\x7b\x7b".data etherscan_source.data &&
    trailsWith "\x7d\x7d".data etherscan_source.data

/-- `&s[1..s.len()-1]`: under the double-encoding guard the outer bytes
are ASCII braces, so the byte slice is the char slice. -/
def stripOuterBraces (s : String) : String :=
  ⟨(s.data.drop 1).dropLast⟩

/-- `extract_true_source_code` (the source normalizer); the `ord`
argument is the hidden iteration order of the `HashMap` built by the
successful parse, if any. -/
def extract_true_source_code (ord : IterOrder) (etherscan_source : String) : String :=
  match (if is_double_encoded_json etherscan_source then
          ContractSources.from_string (stripOuterBraces etherscan_source)
        else none) with
  | some sources => sources.to_string ord
  | none =>
    match ContractSources.from_string etherscan_source with
    | some sources => sources.to_string ord
    | none => not_json_to_string etherscan_source

/-- `ScanResult`. -/
structure ScanResult where
  score : Nat
  summary : String
  risks : List String
deriving DecidableEq, Repr

/-- `ScanResult::new_error`. -/
def ScanResult.new_error (summary : String) (risks : List String) : ScanResult :=
  { score := 0, summary := summary, risks := risks }

/-- `is_valid_ethereum_address`: `str::starts_with` is a character-wise
test and `str::len` is the UTF-8 byte length. -/
def is_valid_ethereum_address (address : String) : Bool :=
  leadsWith "0x".data address.data && address.utf8ByteSize = 42

/-- The admission step of `analyze_address`: `some` is the early error
return for a rejected address (no request is processed further), `none`
means the address passes on to the HTTP fetch. -/
def analyze_address_gate (address : String) : Option ScanResult :=
  if !is_valid_ethereum_address address then
    some (ScanResult.new_error "Error: Invalid Ethereum address format." [])
  else none

/-- `UNVERIFIED_CONTRACT_NEUTRAL_SCORE`. -/
def UNVERIFIED_CONTRACT_NEUTRAL_SCORE : Nat := 50

/-- The `AnalysisResult` that `process_etherscan_data` derives for a
successfully fetched contract: empty source is routed to the unverified
analysis, non-empty source is normalized and scanned as verified. -/
def route_analysis (ord : IterOrder) (source_code : String) : Option AnalysisResult :=
  if source_code = "" then
    analyze_source_code_with_verification "" false
  else
    analyze_source_code_with_verification (extract_true_source_code ord source_code) true

/-- Score and risks of the `ScanResult` that `process_etherscan_data`
returns for a successfully fetched contract.  The summary string is
omitted: it comes from the AI collaborator or a deterministic fallback
and carries no score or risk content. -/
def process_contract_score_risks (ord : IterOrder) (source_code : String) :
    Option (Nat × List String) :=
  if source_code = "" then
    some (UNVERIFIED_CONTRACT_NEUTRAL_SCORE,
      ["The contract source code is not verified on Etherscan."])
  else
    (analyze_source_code_with_verification (extract_true_source_code ord source_code) true).map
      (fun ar => (ar.score, ar.risks.map FoundRisk.to_string))

/-! Helper lemmas: substring search, permutations of two-element maps,
and a closed form for the scan fold. -/

/-- `leadsWith` decides list-prefix-hood. -/
theorem leadsWith_iff (n : List Char) :
    ∀ h : List Char, leadsWith n h = true ↔ ∃ t, h = n ++ t := by
  induction n with
  | nil => intro h; simp [leadsWith]
  | cons c n ih =>
    intro h
    cases h with
    | nil => simp [leadsWith]
    | cons d h1 =>
      simp only [leadsWith, Bool.and_eq_true, decide_eq_true_eq, ih, List.cons_append,
        List.cons.injEq]
      constructor
      · rintro ⟨rfl, t, rfl⟩
        exact ⟨t, rfl, rfl⟩
      · rintro ⟨t, rfl, rfl⟩
        exact ⟨rfl, t, rfl⟩

/-- `containsSub` decides contiguous-sublist-hood. -/
theorem containsSub_iff (n : List Char) :
    ∀ h : List Char, containsSub n h = true ↔ ∃ p q, h = p ++ n ++ q := by
  intro h
  induction h with
  | nil =>
    simp only [containsSub, leadsWith_iff]
    constructor
    · rintro ⟨t, ht⟩
      exact ⟨[], t, ht⟩
    · rintro ⟨p, q, hpq⟩
      have hp : p = [] ∧ n ++ q = [] := by
        have := hpq.symm
        rw [List.append_assoc] at this
        exact List.append_eq_nil.mp this
      exact ⟨q, by rw [hp.1] at hpq; simpa using hpq⟩
  | cons c h1 ih =>
    simp only [containsSub, Bool.or_eq_true, leadsWith_iff, ih]
    constructor
    · rintro (⟨t, ht⟩ | ⟨p, q, hpq⟩)
      · exact ⟨[], t, by simpa using ht⟩
      · exact ⟨c :: p, q, by simp [hpq]⟩
    · rintro ⟨p, q, hpq⟩
      cases p with
      | nil => exact Or.inl ⟨q, by simpa using hpq⟩
      | cons c1 p1 =>
        simp only [List.cons_append, List.cons.injEq] at hpq
        exact Or.inr ⟨p1, q, hpq.2⟩

/-- A sublist of a sublist is a sublist (for the decomposition form). -/
theorem decomp_trans {s b n : List Char} (h1 : ∃ p q, b = p ++ n ++ q)
    (h2 : ∃ p q, s = p ++ b ++ q) : ∃ p q, s = p ++ n ++ q := by
  obtain ⟨p1, q1, rfl⟩ := h1
  obtain ⟨p2, q2, rfl⟩ := h2
  exact ⟨p2 ++ p1, q1 ++ q2, by simp [List.append_assoc]⟩

/-- `str_contains` agrees with the decomposition form of containment. -/
theorem str_contains_iff (hay needle : String) :
    str_contains hay needle = true ↔ ∃ p q, hay.data = p ++ needle.data ++ q := by
  exact containsSub_iff needle.data hay.data

/-- A list permuting a two-element list is one of its two arrangements. -/
theorem perm_pair {α : Type} {l : List α} {a b : α}
    (h : List.Perm l [a, b]) : l = [a, b] ∨ l = [b, a] := by
  have hlen : l.length = 2 := by simpa using h.length_eq
  cases l with
  | nil => simp at hlen
  | cons x l1 =>
    cases l1 with
    | nil => simp at hlen
    | cons y l2 =>
      cases l2 with
      | cons z l3 => simp at hlen
      | nil =>
        have hx : x = a ∨ x = b := by
          have := (h.mem_iff (a := x)).mp (by simp)
          simpa using this
        rcases hx with rfl | rfl
        · left
          have h2 : List.Perm [y] [b] := h.cons_inv
          have : y = b := by simpa using h2.mem_iff.mp (by simp)
          rw [this]
        · have h3 : List.Perm [x, y] [x, a] := h.trans (List.Perm.swap x a [])
          have h2 : List.Perm [y] [a] := h3.cons_inv
          have : y = a := by simpa using h2.mem_iff.mp (by simp)
          right
          rw [this]

/-- `ordId` is a valid iteration order. -/
theorem validIterOrder_ordId : ValidIterOrder ordId :=
  fun l => List.Perm.refl l

/-- `ordRev` is a valid iteration order. -/
theorem validIterOrder_ordRev : ValidIterOrder ordRev :=
  fun l => List.reverse_perm l

/-- Does a check's compiled pattern match the text (false on a pattern
that fails to compile; the fold then panics before using this value)? -/
def checkMatches (source_code : String) (c : AnalysisCheck) : Bool :=
  match compile c.pattern with
  | some re => isMatch re source_code
  | none => false

/-- Closed form of the scan fold: when every pattern compiles, the fold
returns the base score minus the matched impacts, and the matched
findings appended in catalogue order. -/
theorem examineList_eq (src : String) :
    ∀ cs : List AnalysisCheck, (∀ c ∈ cs, (compile c.pattern).isSome = true) →
      ∀ acc : Int × List FoundRisk,
        examineList src cs acc =
          some (acc.1 - ((cs.filter (checkMatches src)).map (fun c => c.score_impact)).sum,
                acc.2 ++ (cs.filter (checkMatches src)).map mkRisk) := by
  intro cs
  induction cs with
  | nil => intro _ acc; simp [examineList]
  | cons c cs ih =>
    intro hall acc
    have hc : (compile c.pattern).isSome = true := hall c (by simp)
    obtain ⟨re, hre⟩ : ∃ re, compile c.pattern = some re :=
      Option.isSome_iff_exists.mp hc
    have hcs : ∀ d ∈ cs, (compile d.pattern).isSome = true :=
      fun d hd => hall d (List.mem_cons_of_mem _ hd)
    have hcm : checkMatches src c = isMatch re src := by
      unfold checkMatches
      rw [hre]
    cases hm : isMatch re src with
    | true =>
      have hstep : examineList src (c :: cs) acc
          = examineList src cs (acc.1 - c.score_impact, acc.2 ++ [mkRisk c]) := by
        simp [examineList, hre, hm]
      rw [hstep, ih hcs, List.filter_cons_of_pos (hcm.trans hm)]
      simp [sub_sub, List.append_assoc]
    | false =>
      have hstep : examineList src (c :: cs) acc = examineList src cs acc := by
        simp [examineList, hre, hm]
      rw [hstep, ih hcs, List.filter_cons_of_neg (by rw [hcm, hm]; exact Bool.false_ne_true)]

/-- Every catalogue pattern compiles. -/
theorem CHECKS_compile : ∀ c ∈ CHECKS, (compile c.pattern).isSome = true := by
  decide

/-- Every catalogue impact is non-negative. -/
theorem CHECKS_impact_nonneg : ∀ c ∈ CHECKS, 0 ≤ c.score_impact := by
  decide

/-- Closed form of `examine_checks` from the base state. -/
theorem examine_checks_eq (src : String) :
    examine_checks src (100, []) =
      some (100 - ((CHECKS.filter (checkMatches src)).map (fun c => c.score_impact)).sum,
            (CHECKS.filter (checkMatches src)).map mkRisk) := by
  have h := examineList_eq src CHECKS CHECKS_compile (100, [])
  simpa [examine_checks] using h

/-- Closed form of the analyzer. -/
theorem analyze_eq (src : String) (v : Bool) :
    analyze_source_code_with_verification src v =
      some { score := toU8 (prevent_negative_scores
               (100 - ((CHECKS.filter (checkMatches src)).map (fun c => c.score_impact)).sum))
             risks := (CHECKS.filter (checkMatches src)).map mkRisk
             contract_traits :=
               { verified := v
                 good_distribution := true
                 contract_type := determine_contract_type src } } := by
  unfold analyze_source_code_with_verification
  rw [examine_checks_eq]
  rfl

/-! The compiled forms of the three `.call`-family patterns, and the
fact that any text containing `x.call(data);` matches all three. -/

/-- Sequence a literal string in front of a regex. -/
def reStr (s : String) (tail : RE) : RE :=
  s.data.foldr (fun c a => RE.seq (RE.lit c) a) tail

/-- Compiled form of `\.call\b`. -/
def reLowCall : RE := reStr ".call" (.seq .wordB .eps)

/-- Compiled form of `\.call\s*\([^)]*\)\s*;`. -/
def reUncheckedCall : RE :=
  reStr ".call" (.seq (.starCls false [.clsS]) (.seq (.lit '(')
    (.seq (.starCls true [.single ')']) (.seq (.lit ')')
      (.seq (.starCls false [.clsS]) (.seq (.lit ';') .eps))))))

/-- Compiled form of `\.call\s*\([^)]*\)`. -/
def reReentrancy : RE :=
  reStr ".call" (.seq (.starCls false [.clsS]) (.seq (.lit '(')
    (.seq (.starCls true [.single ')']) (.seq (.lit ')') .eps))))

/-- The Low-level Call pattern compiles to `reLowCall`. -/
theorem compile_lowCall : compile lowCallCheck.pattern = some reLowCall := by
  decide

/-- The Unchecked Call Return pattern compiles to `reUncheckedCall`. -/
theorem compile_unchecked : compile uncheckedCallCheck.pattern = some reUncheckedCall := by
  decide

/-- The Reentrancy Vulnerability pattern compiles to `reReentrancy`. -/
theorem compile_reentrancy : compile reentrancyCheck.pattern = some reReentrancy := by
  decide

/-- `\.call\b` matches at the head of `.call(data);` followed by
anything, whatever precedes. -/
theorem match_lowCall (pc : Option Char) (q : List Char) :
    matchCont reLowCall pc (".call(data);".data ++ q) (fun _ _ => true) = true := rfl

/-- `\.call\s*\([^)]*\)\s*;` matches at the head of `.call(data);`
followed by anything, whatever precedes. -/
theorem match_unchecked (pc : Option Char) (q : List Char) :
    matchCont reUncheckedCall pc (".call(data);".data ++ q) (fun _ _ => true) = true := rfl

/-- `\.call\s*\([^)]*\)` matches at the head of `.call(data);` followed
by anything, whatever precedes. -/
theorem match_reentrancy (pc : Option Char) (q : List Char) :
    matchCont reReentrancy pc (".call(data);".data ++ q) (fun _ _ => true) = true := rfl

/-- If a regex matches at the start of `b` whatever the previous
character is, then the position search finds it in `a ++ b`. -/
theorem isMatchFrom_append (re : RE) (b : List Char)
    (hb : ∀ pc : Option Char, matchCont re pc b (fun _ _ => true) = true) :
    ∀ (a : List Char) (prev : Option Char), isMatchFrom re prev (a ++ b) = true := by
  intro a
  induction a with
  | nil =>
    intro prev
    rw [List.nil_append]
    unfold isMatchFrom
    rw [hb prev]
    rfl
  | cons c a ih =>
    intro prev
    rw [List.cons_append]
    unfold isMatchFrom
    simp only [Bool.or_eq_true]
    exact Or.inr (ih (some c))

/-- Any text containing `x.call(data);` matches the three
`.call`-family patterns. -/
theorem isMatch_of_xcall (re : RE)
    (hre : ∀ pc q, matchCont re pc (".call(data);".data ++ q) (fun _ _ => true) = true)
    (s : String) (h : ∃ p q, s.data = p ++ "x.call(data);".data ++ q) :
    isMatch re s = true := by
  obtain ⟨p, q, hs⟩ := h
  have hx : "x.call(data);".data = 'x' :: ".call(data);".data := rfl
  have hs2 : s.data = (p ++ ['x']) ++ (".call(data);".data ++ q) := by
    rw [hs, hx]
    simp
  unfold isMatch
  rw [hs2]
  exact isMatchFrom_append re _ (fun pc => hre pc q) _ _

/-! Claim theorems. -/

/-- C1: for every input string the analyzer's score lies in [0, 100]:
the base is 100, each matched check's non-negative impact is subtracted,
and the total is clamped at 0, so the `u8` score is never negative and
never exceeds 100. -/
theorem c1_score_in_bounds :
    ∀ (src : String) (v : Bool) (r : AnalysisResult),
      (analyze_source_code_with_verification src v = some r ∨
        analyze_source_code src = some r) →
      0 ≤ r.score ∧ r.score ≤ 100 := by
  intro src v r h
  have hr : ∃ v1, analyze_source_code_with_verification src v1 = some r := by
    rcases h with h | h
    · exact ⟨v, h⟩
    · exact ⟨true, h⟩
  obtain ⟨v1, hv⟩ := hr
  rw [analyze_eq] at hv
  obtain rfl := Option.some.inj hv
  refine ⟨Nat.zero_le _, ?_⟩
  show toU8 (prevent_negative_scores
    (100 - ((CHECKS.filter (checkMatches src)).map (fun c => c.score_impact)).sum)) ≤ 100
  set S : Int := ((CHECKS.filter (checkMatches src)).map (fun c => c.score_impact)).sum with hSdef
  have hS0 : 0 ≤ S := by
    rw [hSdef]
    refine List.sum_nonneg ?_
    intro x hx
    obtain ⟨c, hc, rfl⟩ := List.mem_map.mp hx
    exact CHECKS_impact_nonneg c (List.mem_of_mem_filter hc)
  unfold toU8 prevent_negative_scores
  by_cases hneg : (100 - S : Int) < 0
  · rw [if_pos hneg]
    norm_num
  · rw [if_neg hneg]
    have h1 : (0 : Int) ≤ 100 - S := le_of_not_lt hneg
    have h2 : (100 - S : Int) < 256 := by omega
    rw [Int.emod_eq_of_lt h1 h2]
    exact Int.toNat_le.mpr (by omega)

/-- Witness for C1 at the empty source. -/
theorem c1_score_in_bounds_witness :
    0 ≤ (AnalysisResult.mk 100 []
      ⟨true, true, "Unknown"⟩).score ∧
    (AnalysisResult.mk 100 [] ⟨true, true, "Unknown"⟩).score ≤ 100 :=
  c1_score_in_bounds "" true _ (Or.inl (by decide))

/-- C2: the normalizer is total and falls back to the identity: when the
input is neither a parsable double-encoded bundle (after stripping one
leading and one trailing brace) nor a parsable single-encoded bundle,
the input string is returned unchanged. -/
theorem c2_normalizer_flat_fallback :
    ∀ (ord : IterOrder) (s : String),
      (is_double_encoded_json s = true →
        ContractSources.from_string (stripOuterBraces s) = none) →
      ContractSources.from_string s = none →
      extract_true_source_code ord s = s := by
  intro ord s h1 h2
  cases hd : is_double_encoded_json s with
  | true => simp [extract_true_source_code, hd, h1 hd, h2, not_json_to_string]
  | false => simp [extract_true_source_code, hd, h2, not_json_to_string]

/-- Witness for C2 at a non-JSON input. -/
theorem c2_normalizer_flat_fallback_witness :
    extract_true_source_code ordId "hello" = "hello" :=
  c2_normalizer_flat_fallback ordId "hello" (fun _ => by decide) (by decide)

/-- C3: when the provider supplies empty source text, the analysis the
pipeline produces carries `verified = false`. -/
theorem c3_verified_false_on_empty_source :
    ∀ (ord : IterOrder) (source_code : String) (r : AnalysisResult),
      source_code = "" → route_analysis ord source_code = some r →
      r.contract_traits.verified = false := by
  intro ord sc r hempty hroute
  subst hempty
  unfold route_analysis at hroute
  rw [if_pos rfl] at hroute
  rw [analyze_eq] at hroute
  obtain rfl := Option.some.inj hroute
  rfl

/-- Witness for C3 at the empty source. -/
theorem c3_verified_false_on_empty_source_witness :
    (AnalysisResult.mk 100 []
      ⟨false, true, "Unknown"⟩).contract_traits.verified = false :=
  c3_verified_false_on_empty_source ordId "" _ rfl (by decide)

/-- C4: empty text through the scanner yields zero findings and score
100, while the unverified route yields the fixed neutral score 50 with
the dedicated unverified risk message; the two paths differ. -/
theorem c4_empty_text_two_paths :
    analyze_source_code_with_verification "" true =
      some ⟨100, [], ⟨true, true, "Unknown"⟩⟩ ∧
    (∀ ord : IterOrder, process_contract_score_risks ord "" =
      some (UNVERIFIED_CONTRACT_NEUTRAL_SCORE,
        ["The contract source code is not verified on Etherscan."])) ∧
    UNVERIFIED_CONTRACT_NEUTRAL_SCORE = 50 ∧
    (100 : Nat) ≠ UNVERIFIED_CONTRACT_NEUTRAL_SCORE := by
  refine ⟨by decide, fun ord => ?_, rfl, by decide⟩
  simp [process_contract_score_risks]

/-- C8: the catalogue has 16 entries, every pattern compiles, and hence
the pattern-compilation panic inside the scan loop is unreachable: the
analyzer returns a result for every input string. -/
theorem c8_catalogue_valid_no_panic :
    CHECKS.length = 16 ∧
    CHECKS.all (fun c => (compile c.pattern).isSome) = true ∧
    ∀ (src : String) (v : Bool),
      (analyze_source_code_with_verification src v).isSome = true ∧
      (analyze_source_code src).isSome = true := by
  refine ⟨by decide, by decide, fun src v => ⟨?_, ?_⟩⟩
  · rw [analyze_eq]
    rfl
  · unfold analyze_source_code
    rw [analyze_eq]
    rfl

/-- C5: every text containing `x.call(data);` triggers Low-level Call
(impact 5), Unchecked Call Return (impact 10) and Reentrancy
Vulnerability (impact 30) simultaneously, and the flat input consisting
of exactly that text scores 55. -/
theorem c5_xcall_triple_finding :
    (∀ s : String, (∃ p q, s.data = p ++ "x.call(data);".data ++ q) →
      ∃ r, analyze_source_code s = some r ∧
        mkRisk lowCallCheck ∈ r.risks ∧
        mkRisk uncheckedCallCheck ∈ r.risks ∧
        mkRisk reentrancyCheck ∈ r.risks) ∧
    lowCallCheck.score_impact = 5 ∧
    uncheckedCallCheck.score_impact = 10 ∧
    reentrancyCheck.score_impact = 30 ∧
    (analyze_source_code "x.call(data);").map (fun r => r.score) = some 55 := by
  refine ⟨?_, rfl, rfl, rfl, by decide⟩
  intro s h
  unfold analyze_source_code
  rw [analyze_eq]
  refine ⟨_, rfl, ?_, ?_, ?_⟩
  · refine List.mem_map_of_mem _ (List.mem_filter.mpr ⟨by simp [CHECKS], ?_⟩)
    unfold checkMatches
    rw [compile_lowCall]
    exact isMatch_of_xcall reLowCall match_lowCall s h
  · refine List.mem_map_of_mem _ (List.mem_filter.mpr ⟨by simp [CHECKS], ?_⟩)
    unfold checkMatches
    rw [compile_unchecked]
    exact isMatch_of_xcall reUncheckedCall match_unchecked s h
  · refine List.mem_map_of_mem _ (List.mem_filter.mpr ⟨by simp [CHECKS], ?_⟩)
    unfold checkMatches
    rw [compile_reentrancy]
    exact isMatch_of_xcall reReentrancy match_reentrancy s h

/-- Witness for C5 at the flat input itself. -/
theorem c5_xcall_triple_finding_witness :
    ∃ r, analyze_source_code "x.call(data);" = some r ∧
      mkRisk lowCallCheck ∈ r.risks ∧
      mkRisk uncheckedCallCheck ∈ r.risks ∧
      mkRisk reentrancyCheck ∈ r.risks :=
  c5_xcall_triple_finding.1 "x.call(data);" ⟨[], [], by simp⟩

/-- The two files of the C6 round-trip bundle. -/
def fileA : String × SourceFile := ("A.sol", ⟨"contract A \x7b\x7d"⟩)

/-- Second file of the C6 round-trip bundle. -/
def fileB : String × SourceFile := ("B.sol", ⟨"selfdestruct(x);"⟩)

/-- The parsed C6 bundle. -/
def csC6 : ContractSources := ⟨[fileA, fileB]⟩

/-- The C6 bundle JSON-encoded under `sources` with per-file `content`
objects, wrapped in one extra pair of braces. -/
def inputC6 : String :=
  "\x7b\x7b\"sources\": \x7b\"A.sol\": \x7b\"content\": \"contract A \x7b\x7d\"\x7d, \"B.sol\": \x7b\"content\": \"selfdestruct(x);\"\x7d\x7d\x7d\x7d"

/-- C6: the double-encoded round trip: normalizing `inputC6` yields a
text containing both file contents, and scanning that text reports the
Self-Destruct finding. -/
theorem c6_roundtrip_selfdestruct :
    ∀ ord : IterOrder, ValidIterOrder ord →
      (∃ p q, (extract_true_source_code ord inputC6).data =
        p ++ "contract A \x7b\x7d".data ++ q) ∧
      (∃ p q, (extract_true_source_code ord inputC6).data =
        p ++ "selfdestruct(x);".data ++ q) ∧
      ∃ r, analyze_source_code_with_verification
          (extract_true_source_code ord inputC6) true = some r ∧
        mkRisk selfDestructCheck ∈ r.risks := by
  intro ord hord
  have hex : extract_true_source_code ord inputC6 = ContractSources.to_string ord csC6 := by
    unfold extract_true_source_code
    rw [show (if is_double_encoded_json inputC6 then
        ContractSources.from_string (stripOuterBraces inputC6) else none) = some csC6 by decide]
  have hpp : ord csC6.sources = [fileA, fileB] ∨ ord csC6.sources = [fileB, fileA] :=
    perm_pair (hord csC6.sources)
  rcases hpp with hl | hl
  · have hts : ContractSources.to_string ord csC6 =
        "contract A \x7b\x7d\nselfdestruct(x);" := by
      unfold ContractSources.to_string
      rw [hl]
      decide
    rw [hex, hts]
    exact ⟨⟨[], "\nselfdestruct(x);".data, by decide⟩,
      ⟨"contract A \x7b\x7d\n".data, [], by decide⟩,
      ⟨⟨75, [mkRisk selfDestructCheck], ⟨true, true, "Smart Contract"⟩⟩,
        by decide, by simp⟩⟩
  · have hts : ContractSources.to_string ord csC6 =
        "selfdestruct(x);\ncontract A \x7b\x7d" := by
      unfold ContractSources.to_string
      rw [hl]
      decide
    rw [hex, hts]
    exact ⟨⟨"selfdestruct(x);\n".data, [], by decide⟩,
      ⟨[], "\ncontract A \x7b\x7d".data, by decide⟩,
      ⟨⟨75, [mkRisk selfDestructCheck], ⟨true, true, "Smart Contract"⟩⟩,
        by decide, by simp⟩⟩

/-- Witness for C6 at the insertion-order iteration. -/
theorem c6_roundtrip_selfdestruct_witness :
    (∃ p q, (extract_true_source_code ordId inputC6).data =
      p ++ "contract A \x7b\x7d".data ++ q) ∧
    (∃ p q, (extract_true_source_code ordId inputC6).data =
      p ++ "selfdestruct(x);".data ++ q) ∧
    ∃ r, analyze_source_code_with_verification
        (extract_true_source_code ordId inputC6) true = some r ∧
      mkRisk selfDestructCheck ∈ r.risks :=
  c6_roundtrip_selfdestruct ordId validIterOrder_ordId

/-- A single-encoded two-file bundle whose files hold different texts. -/
def inputC7 : String :=
  "\x7b\"sources\": \x7b\"X.sol\": \x7b\"content\": \"AAA\"\x7d, \"Y.sol\": \x7b\"content\": \"BBB\"\x7d\x7d\x7d"

/-- C7 counterexample: two valid `HashMap` iteration orders — both are
permutations of the parsed entries, as the unordered map guarantees no
more — give different normalizer outputs on the same input string, so
the output is not a function of the input string alone. -/
theorem c7_counterexample_order_dependence :
    ValidIterOrder ordId ∧ ValidIterOrder ordRev ∧
    extract_true_source_code ordId inputC7 ≠ extract_true_source_code ordRev inputC7 :=
  ⟨validIterOrder_ordId, validIterOrder_ordRev, by decide⟩

/-- C7 amended: normalization is a pure function of the input string
and the per-invocation map iteration order: two invocations either
agree, or both render the same parsed bundle, each joining its file
contents in its own iteration order (a permutation of the other's). -/
theorem c7_amended_pure_up_to_order :
    ∀ (ord ord1 : IterOrder) (s : String),
      ValidIterOrder ord → ValidIterOrder ord1 →
      extract_true_source_code ord s = extract_true_source_code ord1 s ∨
      ∃ cs : ContractSources,
        extract_true_source_code ord s = cs.to_string ord ∧
        extract_true_source_code ord1 s = cs.to_string ord1 ∧
        List.Perm (ord cs.sources) (ord1 cs.sources) := by
  intro ord ord1 s h h1
  unfold extract_true_source_code
  cases hp1 : (if is_double_encoded_json s then
      ContractSources.from_string (stripOuterBraces s) else none) with
  | some cs =>
    exact Or.inr ⟨cs, rfl, rfl, (h cs.sources).trans (h1 cs.sources).symm⟩
  | none =>
    cases hp2 : ContractSources.from_string s with
    | some cs =>
      exact Or.inr ⟨cs, rfl, rfl, (h cs.sources).trans (h1 cs.sources).symm⟩
    | none =>
      exact Or.inl rfl

/-- Witness for the amended C7 at matching iteration orders. -/
theorem c7_amended_pure_up_to_order_witness :
    extract_true_source_code ordId "hello" = extract_true_source_code ordId "hello" ∨
    ∃ cs : ContractSources,
      extract_true_source_code ordId "hello" = cs.to_string ordId ∧
      extract_true_source_code ordId "hello" = cs.to_string ordId ∧
      List.Perm (ordId cs.sources) (ordId cs.sources) :=
  c7_amended_pure_up_to_order ordId ordId "hello" validIterOrder_ordId validIterOrder_ordId

/-- Containment of a sub-needle follows from containment of a needle
that contains it. -/
theorem contains_mono (s bsub bsup : String)
    (hsub : ∃ p q, bsup.data = p ++ bsub.data ++ q) :
    str_contains s bsup = true → str_contains s bsub = true := by
  intro h
  rw [str_contains_iff] at h ⊢
  exact decomp_trans hsub h

/-- Contrapositive of `contains_mono`. -/
theorem contains_false_mono (s bsub bsup : String)
    (hsub : ∃ p q, bsup.data = p ++ bsub.data ++ q)
    (h : str_contains s bsub = false) : str_contains s bsup = false := by
  cases hcase : str_contains s bsup with
  | false => rfl
  | true =>
    have h2 := contains_mono s bsub bsup hsub hcase
    rw [h] at h2
    exact absurd h2 Bool.false_ne_true

/-- C9: the classifier returns the first matching label in the fixed
priority order ERC20 > ERC721 > ERC1155 > Ownable > contract > Unknown
over substring markers, and any text containing `interface IERC20` is
labelled `ERC20 Token` even when `ERC721` also occurs. -/
theorem c9_classifier_priority :
    (∀ s : String, (∃ p q, s.data = p ++ "interface IERC20".data ++ q) →
      determine_contract_type s = "ERC20 Token") ∧
    (∀ s : String, (∃ p q, s.data = p ++ "ERC20".data ++ q) →
      determine_contract_type s = "ERC20 Token") ∧
    (∀ s : String, str_contains s "ERC20" = false →
      (∃ p q, s.data = p ++ "ERC721".data ++ q) →
      determine_contract_type s = "NFT (ERC721)") ∧
    (∀ s : String, str_contains s "ERC20" = false → str_contains s "ERC721" = false →
      (∃ p q, s.data = p ++ "ERC1155".data ++ q) →
      determine_contract_type s = "Multi-Token (ERC1155)") ∧
    (∀ s : String, str_contains s "ERC20" = false → str_contains s "ERC721" = false →
      str_contains s "ERC1155" = false →
      (∃ p q, s.data = p ++ "Ownable".data ++ q) →
      determine_contract_type s = "Ownable Contract") ∧
    (∀ s : String, str_contains s "ERC20" = false → str_contains s "ERC721" = false →
      str_contains s "ERC1155" = false → str_contains s "Ownable" = false →
      (∃ p q, s.data = p ++ "contract".data ++ q) →
      determine_contract_type s = "Smart Contract") ∧
    (∀ s : String, str_contains s "ERC20" = false → str_contains s "ERC721" = false →
      str_contains s "ERC1155" = false → str_contains s "Ownable" = false →
      str_contains s "contract" = false →
      determine_contract_type s = "Unknown") ∧
    determine_contract_type "interface IERC20 is ERC721" = "ERC20 Token" := by
  have herc20 : ∀ s : String, (∃ p q, s.data = p ++ "ERC20".data ++ q) →
      determine_contract_type s = "ERC20 Token" := by
    intro s h
    have hE : str_contains s "ERC20" = true := (str_contains_iff s "ERC20").mpr h
    simp [determine_contract_type, hE]
  refine ⟨?_, herc20, ?_, ?_, ?_, ?_, ?_, by decide⟩
  · intro s h
    exact herc20 s (decomp_trans ⟨"interface I".data, [], by decide⟩ h)
  · intro s h20 h
    have hE : str_contains s "ERC721" = true := (str_contains_iff s "ERC721").mpr h
    have hI20 := contains_false_mono s "ERC20" "IERC20" ⟨"I".data, [], by decide⟩ h20
    simp [determine_contract_type, h20, hI20, hE]
  · intro s h20 h721 h
    have hE : str_contains s "ERC1155" = true := (str_contains_iff s "ERC1155").mpr h
    have hI20 := contains_false_mono s "ERC20" "IERC20" ⟨"I".data, [], by decide⟩ h20
    have hI721 := contains_false_mono s "ERC721" "IERC721" ⟨"I".data, [], by decide⟩ h721
    simp [determine_contract_type, h20, hI20, h721, hI721, hE]
  · intro s h20 h721 h1155 h
    have hE : str_contains s "Ownable" = true := (str_contains_iff s "Ownable").mpr h
    have hI20 := contains_false_mono s "ERC20" "IERC20" ⟨"I".data, [], by decide⟩ h20
    have hI721 := contains_false_mono s "ERC721" "IERC721" ⟨"I".data, [], by decide⟩ h721
    have hI1155 := contains_false_mono s "ERC1155" "IERC1155" ⟨"I".data, [], by decide⟩ h1155
    simp [determine_contract_type, h20, hI20, h721, hI721, h1155, hI1155, hE]
  · intro s h20 h721 h1155 hown h
    have hE : str_contains s "contract" = true := (str_contains_iff s "contract").mpr h
    have hI20 := contains_false_mono s "ERC20" "IERC20" ⟨"I".data, [], by decide⟩ h20
    have hI721 := contains_false_mono s "ERC721" "IERC721" ⟨"I".data, [], by decide⟩ h721
    have hI1155 := contains_false_mono s "ERC1155" "IERC1155" ⟨"I".data, [], by decide⟩ h1155
    simp [determine_contract_type, h20, hI20, h721, hI721, h1155, hI1155, hown, hE]
  · intro s h20 h721 h1155 hown hcon
    have hI20 := contains_false_mono s "ERC20" "IERC20" ⟨"I".data, [], by decide⟩ h20
    have hI721 := contains_false_mono s "ERC721" "IERC721" ⟨"I".data, [], by decide⟩ h721
    have hI1155 := contains_false_mono s "ERC1155" "IERC1155" ⟨"I".data, [], by decide⟩ h1155
    simp [determine_contract_type, h20, hI20, h721, hI721, h1155, hI1155, hown, hcon]

/-- Witness for C9 at a text holding both markers. -/
theorem c9_classifier_priority_witness :
    determine_contract_type "interface IERC20 use" = "ERC20 Token" :=
  c9_classifier_priority.1 "interface IERC20 use" ⟨[], " use".data, by decide⟩

/-- A 42-character address whose UTF-8 encoding is longer than 42
bytes. -/
def badAddr : String := "0x" ++ ⟨List.replicate 40 'é'⟩

/-- C10 counterexample: `badAddr` starts with `0x` and is exactly 42
characters long, yet the gate rejects it — `str::len` counts UTF-8
bytes, not characters, so the claim's acceptance condition is wrong for
non-ASCII input. -/
theorem c10_counterexample_bytes_vs_chars :
    leadsWith "0x".data badAddr.data = true ∧
    badAddr.data.length = 42 ∧
    is_valid_ethereum_address badAddr = false := by
  exact ⟨by decide, by decide, by decide⟩

/-- C10 amended: the address is accepted exactly when it starts with
`0x` and its UTF-8 encoding is exactly 42 bytes (which is 42 characters
for ASCII addresses); every rejected address yields the error result
with score 0 and an empty risk list, and no accepted address does. -/
theorem c10_amended_address_gate :
    ∀ address : String,
      (is_valid_ethereum_address address = true ↔
        (∃ t, address.data = "0x".data ++ t) ∧ address.utf8ByteSize = 42) ∧
      (is_valid_ethereum_address address = false →
        analyze_address_gate address =
          some { score := 0, summary := "Error: Invalid Ethereum address format.",
                 risks := [] }) ∧
      (is_valid_ethereum_address address = true → analyze_address_gate address = none) ∧
      ∀ r, analyze_address_gate address = some r → r.score = 0 ∧ r.risks = [] := by
  intro a
  refine ⟨?_, ?_, ?_, ?_⟩
  · unfold is_valid_ethereum_address
    rw [Bool.and_eq_true, leadsWith_iff]
    simp
  · intro h
    unfold analyze_address_gate
    rw [h]
    rfl
  · intro h
    unfold analyze_address_gate
    rw [h]
    rfl
  · intro r h
    unfold analyze_address_gate at h
    cases hv : is_valid_ethereum_address a with
    | true =>
      rw [hv] at h
      simp at h
    | false =>
      rw [hv] at h
      simp at h
      subst h
      exact ⟨rfl, rfl⟩

/-- Witness for the amended C10 at a rejected address. -/
theorem c10_amended_address_gate_witness :
    analyze_address_gate "invalid_address" =
      some { score := 0, summary := "Error: Invalid Ethereum address format.",
             risks := [] } :=
  (c10_amended_address_gate "invalid_address").2.1 (by decide)

end Susbot
